import Mathlib

/-!
Plumbus: a signature-driven HTTP dispatch library.

A shallow embedding of `plumbus.go`, `documentation.go` and the generated adaptor
`RequestBodyHandler.adaptor-generated.go`.

Conventions of the embedding:

* a Go `string` is a Lean `String` (a sequence of Unicode code points, i.e. valid UTF-8);
* an `http.ResponseWriter` is an in-memory record of what was sent: the header map, whether the
  status line has been committed, the status code and the body written so far; writing to it
  does not fail;
* an `*http.Request` is read, never changed;
* user-supplied methods (`FromRequest`, `ToResponse`, the handler function) are arbitrary total
  functions carried by the values they belong to; the calls of them are recorded, in order, next
  to the response;
* the package `generate` (the signature classifier) is not among the source files: its
  `CollectInfo` is a parameter, and `Info` has the fields the two source files read;
* a Go panic is an explicit outcome.
-/

set_option autoImplicit false

namespace Plumbus

/-! ## Text cleanup (`documentation.go`) -/

/-- The predicate `unicode.IsSpace`: the Latin-1 white space characters and the characters of
category Z. -/
def isSpace (c : Char) : Bool :=
  let n := c.toNat
  n = 0x09 || n = 0x0A || n = 0x0B || n = 0x0C || n = 0x0D || n = 0x20 || n = 0x85 || n = 0xA0 ||
  n = 0x1680 || (0x2000 ≤ n && n ≤ 0x200A) || n = 0x2028 || n = 0x2029 || n = 0x202F ||
  n = 0x205F || n = 0x3000

/-- The function `strings.TrimSpace` on the characters of a string: leading and trailing white
space removed. -/
def trimSpaceChars (s : List Char) : List Char :=
  ((s.dropWhile isSpace).reverse.dropWhile isSpace).reverse

/-- The function `strings.Split(text, sep)` for a separator of one character, on the characters
of a string: the pieces between separators; always at least one piece. -/
def splitOnChar (sep : Char) : List Char → List (List Char)
  | [] => [[]]
  | c :: cs =>
    if c = sep then [] :: splitOnChar sep cs
    else
      match splitOnChar sep cs with
      | [] => [[c]]
      | l :: ls => (c :: l) :: ls

/-- The function `strings.Join(lines, " ")` on the characters of the lines. -/
def joinSpace : List (List Char) → List Char
  | [] => []
  | [l] => l
  | l :: ls => l ++ ' ' :: joinSpace ls

/-- The body of `cleanupText` on the characters of the text. -/
def cleanupChars (text : List Char) : List Char :=
  let lines := splitOnChar '\n' text
  let lines := lines.map trimSpaceChars
  trimSpaceChars (joinSpace lines)

/-- The function `cleanupText` of `documentation.go`. -/
def cleanupText (text : String) : String :=
  String.mk (cleanupChars text.data)

/-! ## Go types and values as seen through `reflect` -/

/-- The kinds of type that are neither pointer, slice, map nor struct. -/
inductive ScalarKind
  | bool
  | int
  | float
  | string
  deriving DecidableEq, Repr

mutual
/-- The finite (non-recursive) Go types built from scalars, pointers, slices, maps and structs. -/
inductive GoType
  | scalar (k : ScalarKind)
  | ptr (elem : GoType)
  | slice (elem : GoType)
  | map (key elem : GoType)
  | struct (fields : FieldTypes)
/-- The fields of a struct type, in declaration order; `exported` says whether a field reached
through an addressable struct value can be set (`CanSet`). -/
inductive FieldTypes
  | nil
  | cons (name : String) (exported : Bool) (typ : GoType) (rest : FieldTypes)
end

mutual
/-- Go values of the types of `GoType`. -/
inductive GoValue
  | bool (b : Bool)
  | int (n : Int)
  | float (bits : Nat)
  | string (s : String)
  | nilPtr
  | ptr (target : GoValue)
  | nilSlice
  | slice (elems : GoValues)
  | nilMap
  | map (entries : GoEntries)
  | struct (fields : GoValues)
/-- A sequence of values: the elements of a slice or the fields of a struct. -/
inductive GoValues
  | nil
  | cons (v : GoValue) (rest : GoValues)
/-- The entries of a map. -/
inductive GoEntries
  | nil
  | cons (key value : GoValue) (rest : GoEntries)
end

mutual
/-- The zero value of a type: what `reflect.New(typ).Elem()`, `reflect.Zero(typ)` and a fresh
slice element hold. -/
def zeroValue : GoType → GoValue
  | .scalar .bool => .bool false
  | .scalar .int => .int 0
  | .scalar .float => .float 0
  | .scalar .string => .string ""
  | .ptr _ => .nilPtr
  | .slice _ => .nilSlice
  | .map _ _ => .nilMap
  | .struct fs => .struct (zeroFields fs)
/-- The zero values of the fields of a struct. -/
def zeroFields : FieldTypes → GoValues
  | .nil => .nil
  | .cons _ _ t rest => .cons (zeroValue t) (zeroFields rest)
end

/-- A `reflect.Value`: the value held and whether it is addressable (`CanAddr`). -/
structure RValue where
  val : GoValue
  canAddr : Bool

/-- The test `v.Kind() == reflect.Ptr || v.Kind() == reflect.Slice || v.Kind() == reflect.Map`
of `needsExample`. -/
def isPtrOrSliceOrMap : GoType → Bool
  | .ptr _ => true
  | .slice _ => true
  | .map _ _ => true
  | _ => false

/-- The closure `needsExample` of `deepZero`, on a value of type `t` whose `CanSet()` is
`canSet`. -/
def needsExample (t : GoType) (canSet : Bool) : Bool :=
  let isPtrOrSliceOrMap := isPtrOrSliceOrMap t
  let canSet := isPtrOrSliceOrMap && canSet
  isPtrOrSliceOrMap && canSet

mutual
/-- The function `deepZero` of `documentation.go`. The values returned by `Addr`, `reflect.New`,
`reflect.MakeSlice` and `reflect.MakeMap` are not addressable; `reflect.New(typ).Elem()` is. An
element of a slice can always be set; a field of the addressable struct can be set when it is
exported. -/
def deepZero : GoType → RValue
  | .ptr elem =>
    let val := deepZero elem
    if val.canAddr then
      ⟨.ptr val.val, false⟩
    else
      ⟨.ptr (zeroValue elem), false⟩
  | .slice elem =>
    if needsExample elem true then
      ⟨.slice (.cons (deepZero elem).val .nil), false⟩
    else
      ⟨.slice (.cons (zeroValue elem) .nil), false⟩
  | .map key elem =>
    let k := deepZero key
    let v := deepZero elem
    ⟨.map (.cons k.val v.val .nil), false⟩
  | .scalar k => ⟨zeroValue (.scalar k), true⟩
  | .struct fs => ⟨.struct (deepZeroFields fs), true⟩
/-- The loop of `deepZero` over the fields of a struct. -/
def deepZeroFields : FieldTypes → GoValues
  | .nil => .nil
  | .cons _ exported t rest =>
    .cons (if needsExample t exported then (deepZero t).val else zeroValue t) (deepZeroFields rest)
end

mutual
/-- Whether a nil pointer, nil slice or nil map is reachable from a value through pointer targets,
slice elements, map entries and struct fields. -/
def hasNil : GoValue → Bool
  | .nilPtr => true
  | .nilSlice => true
  | .nilMap => true
  | .ptr t => hasNil t
  | .slice es => hasNilValues es
  | .map es => hasNilEntries es
  | .struct fs => hasNilValues fs
  | _ => false
/-- Whether a nil is reachable from one of the values. -/
def hasNilValues : GoValues → Bool
  | .nil => false
  | .cons v rest => hasNil v || hasNilValues rest
/-- Whether a nil is reachable from a key or a value of the entries. -/
def hasNilEntries : GoEntries → Bool
  | .nil => false
  | .cons k v rest => hasNil k || hasNil v || hasNilEntries rest
end

/-! ## Errors, requests and responses -/

/-- A non-nil Go `error` value: its `Error()` text and, when its dynamic type implements
`HTTPError`, its `ResponseCode()`. -/
structure GoError where
  msg : String
  responseCode : Option Int
  deriving DecidableEq, Repr

/-- The parts of an `*http.Request` the library reads. -/
structure Request where
  Method : String
  Path : String
  RawQuery : String
  Body : String
  deriving DecidableEq, Repr

/-- An `http.ResponseWriter` as an in-memory record of the response. -/
structure ResponseWriter where
  header : List (String × String)
  wroteHeader : Bool
  status : Int
  body : String
  deriving DecidableEq, Repr

/-- A response on which nothing has been set or written yet. -/
def ResponseWriter.fresh : ResponseWriter :=
  { header := [], wroteHeader := false, status := 0, body := "" }

/-- The call `w.Header().Set(key, value)`. -/
def ResponseWriter.SetHeader (w : ResponseWriter) (key value : String) : ResponseWriter :=
  { w with header := (w.header.filter (fun kv => kv.1 != key)) ++ [(key, value)] }

/-- The check `checkWriteHeaderCode` of `net/http`: a status code has three digits. -/
def validStatusCode (code : Int) : Bool :=
  decide (100 ≤ code) && decide (code ≤ 999)

/-- The status line is sent with the given code. -/
def ResponseWriter.commit (w : ResponseWriter) (code : Int) : ResponseWriter :=
  { w with wroteHeader := true, status := code }

/-- The method `WriteHeader`, as the recorder of `net/http/httptest` implements it: once a status
has been sent the call does nothing; otherwise a code outside 100..999 panics (`none`) and sends
nothing, as it does in the server, and any other code is sent. -/
def ResponseWriter.WriteHeader (w : ResponseWriter) (code : Int) : Option ResponseWriter :=
  if w.wroteHeader then some w
  else if validStatusCode code then some (w.commit code)
  else none

/-- The method `Write`: sends status 200 when no status was sent yet, then appends to the
body. -/
def ResponseWriter.Write (w : ResponseWriter) (b : String) : ResponseWriter :=
  let w := if w.wroteHeader then w else w.commit 200
  { w with body := w.body ++ b }

/-- The function `http.Error`: content type and sniffing headers, the status code, then the text
as a line (`fmt.Fprintln`). `Except.error` is the response at the point where `WriteHeader`
panicked. -/
def httpError (w : ResponseWriter) (error : String) (code : Int) :
    Except ResponseWriter ResponseWriter :=
  let w := w.SetHeader "Content-Type" "text/plain; charset=utf-8"
  let w := w.SetHeader "X-Content-Type-Options" "nosniff"
  match w.WriteHeader code with
  | none => .error w
  | some w => .ok (w.Write (error ++ "\n"))

/-- A lower-case hexadecimal digit. -/
def hexDigit (n : Nat) : Char :=
  "0123456789abcdef".data.getD (n % 16) '0'

/-- The escape `\uXXXX` of a code point below 0x10000. -/
def escapeU (n : Nat) : String :=
  String.mk ['\\', 'u', hexDigit (n / 4096), hexDigit (n / 256), hexDigit (n / 16), hexDigit n]

/-- How `encoding/json` writes one character of a string, with HTML escaping on (the default of
an `Encoder`). -/
def jsonEscapeChar (c : Char) : String :=
  if c = '"' then "\\\""
  else if c = '\\' then "\\\\"
  else if c.toNat = 0x08 then "\\b"
  else if c.toNat = 0x0C then "\\f"
  else if c = '\n' then "\\n"
  else if c = '\r' then "\\r"
  else if c = '\t' then "\\t"
  else if c.toNat < 0x20 || c = '<' || c = '>' || c = '&' || c.toNat = 0x2028 || c.toNat = 0x2029
  then escapeU c.toNat
  else String.singleton c

/-- A string as a JSON string literal. -/
def jsonQuote (s : String) : String :=
  "\"" ++ String.join (s.data.map jsonEscapeChar) ++ "\""

/-- The line `json.NewEncoder(res).Encode(map[string]interface{}{"error": msg})` writes. -/
def encodeErrorObject (msg : String) : String :=
  "\x7b\"error\":" ++ jsonQuote msg ++ "\x7d\n"

/-- The calls of user code and of the JSON codec made while a request is served, recorded in
order. -/
inductive Event
  | decodeBody (i : Nat)
  | fromRequest (i : Nat)
  | call (args : List GoValue)
  | toResponse (k : Nat)
  | encodeBody (k : Nat)

/-- The state of serving one request: the response, the lines logged, the calls made so far, and
the message of the panic that ended it, if any. -/
structure Exec where
  res : ResponseWriter
  log : List String
  trace : List Event
  panicked : Option String

/-- The state before anything has happened, on a given response. -/
def Exec.start (res : ResponseWriter) : Exec :=
  { res := res, log := [], trace := [], panicked := none }

/-- Record a call. -/
def Exec.record (x : Exec) (e : Event) : Exec :=
  { x with trace := x.trace ++ [e] }

/-- End with a panic. -/
def Exec.panic (x : Exec) (msg : String) : Exec :=
  { x with panicked := some msg }

/-- The outcome of a call of `http.Error` in the state `x`: the response written, or the panic
of `WriteHeader`. -/
def Exec.afterHttpError (x : Exec) (out : Except ResponseWriter ResponseWriter) : Exec :=
  match out with
  | .ok res => { x with res := res }
  | .error res => { x with res := res, panicked := some "invalid WriteHeader code" }

/-- The function `HandleResponseError` of `plumbus.go`. -/
def HandleResponseError (x : Exec) (req : Request) (err : GoError) : Exec :=
  match err.responseCode with
  | some code =>
    match x.res.WriteHeader code with
    | none => x.panic "invalid WriteHeader code"
    | some res => { x with res := res.Write (encodeErrorObject err.msg) }
  | none =>
    let line := "error handling request: " ++ req.Method ++ " " ++ req.Path ++ ": " ++ err.msg
    let body := "\x7b\"error\":\"internal server error\"\x7d"
    ({ x with log := x.log ++ [line] } : Exec).afterHttpError (httpError x.res body 500)

/-! ## The signature record and the reflective adaptor (`plumbus.go`) -/

/-- The conversion kinds of the package `generate`, as `documentation.go` names them. -/
inductive ConversionType
  | ConvertBody
  | ConvertCustom
  | ConvertIntQueryParam
  | ConvertStringQueryParam
  | ConvertError
  deriving DecidableEq, Repr

/-- A `reflect.Type` as the library uses it: how `%v` prints it, its structure, the text of
`Documentation()` when the type implements `documenter`, how the JSON decoder fills a fresh value
of the type from a request body, and the method `FromRequest` on a fresh value of the type when
the type has that capability (`none`: the type assertion `.(FromRequest)` fails). -/
structure TypeDesc where
  name : String
  shape : GoType
  documentation : Option String
  decode : String → Except GoError GoValue
  fromRequest : Option (Request → Except GoError GoValue)

/-- One entry of `info.Inputs` or `info.Outputs`: `documentation.go` reads `Type`,
`ConversionType` and `Name` from it; `plumbus.go` uses the entry as the type itself. -/
structure Converter where
  Typ : TypeDesc
  ConversionType : ConversionType
  Name : String

/-- The record `generate.Info` with the fields the two source files read. The body indices are
-1 when there is no body. -/
structure Info where
  Inputs : List Converter
  Outputs : List Converter
  IsPointer : Nat → Bool
  RequestBodyIndex : Int
  ResponseBodyIndex : Int
  LastIsError : Bool

/-- A result of the handler function: what it holds as an `error` (`none`: nil), its method
`ToResponse` when its type has that capability, and how the JSON encoder marshals it. -/
structure Result where
  err : Option GoError
  toResponse : Option (ResponseWriter → ResponseWriter × Option GoError)
  json : Except GoError String

/-- The statement `http.Error(res, msg, http.StatusBadRequest)` of a failed body decode. -/
def decodeFailure (x : Exec) (err : GoError) : Exec :=
  let msg := "\x7b\"error\": \"decoding json: " ++ err.msg ++ "\"\x7d"
  x.afterHttpError (httpError x.res msg 400)

/-- The two branches of the input loop that call `FromRequest`, for a pointer and for a
non-pointer parameter: both assert the capability on the pointer to the fresh value and call it;
they differ in what they allocate, which the value returned by `fromRequest` stands for. -/
def bindCustom (typ : TypeDesc) (i : Nat) (req : Request) (x : Exec) :
    Except Exec (GoValue × Exec) :=
  match typ.fromRequest with
  | none => .error (x.panic "interface conversion: missing method FromRequest")
  | some f =>
    let x := x.record (.fromRequest i)
    match f req with
    | .error err => .error (HandleResponseError x req err)
    | .ok arg => .ok (arg, x)

/-- The input loop of `infoToDynamicAdaptor`, from input `i` on, with the arguments bound so far.
`Except.error` is the state in which the adaptor returned early. -/
def bindInputs (info : Info) (req : Request) :
    List Converter → Nat → List GoValue → Exec → Except Exec (List GoValue × Exec)
  | [], _, args, x => .ok (args, x)
  | inp :: rest, i, args, x =>
    let typ := inp.Typ
    if (i : Int) = info.RequestBodyIndex then
      let x := x.record (.decodeBody i)
      match typ.decode req.Body with
      | .error err => .error (decodeFailure x err)
      | .ok arg => bindInputs info req rest (i + 1) (args ++ [arg]) x
    else if info.IsPointer i then
      match bindCustom typ i req x with
      | .error x => .error x
      | .ok (arg, x) => bindInputs info req rest (i + 1) (args ++ [arg]) x
    else
      match bindCustom typ i req x with
      | .error x => .error x
      | .ok (arg, x) => bindInputs info req rest (i + 1) (args ++ [arg]) x

/-- The loop of `infoToDynamicAdaptor` over the results, from result `i` on: `ToResponse` of every
result but the body. `Except.error` is the state in which the adaptor returned early. -/
def toResponseLoop (info : Info) (req : Request) : List Result → Nat → Exec → Except Exec Exec
  | [], _, x => .ok x
  | result :: rest, i, x =>
    if (i : Int) = info.ResponseBodyIndex then
      toResponseLoop info req rest (i + 1) x
    else
      match result.toResponse with
      | none => .error (x.panic "interface conversion: missing method ToResponse")
      | some f =>
        let x := x.record (.toResponse i)
        let out := f x.res
        let x := { x with res := out.1 }
        match out.2 with
        | some err => .error (HandleResponseError x req err)
        | none => toResponseLoop info req rest (i + 1) x

/-- The last statement of `infoToDynamicAdaptor`: the JSON encoding of the body result. The
encoder writes nothing when marshalling fails, and the marshalled value followed by a newline
otherwise. -/
def encodeResponseBody (info : Info) (req : Request) (results : List Result) (x : Exec) : Exec :=
  if info.ResponseBodyIndex ≠ -1 then
    if info.ResponseBodyIndex < 0 then x.panic "index out of range"
    else
      match results.get? info.ResponseBodyIndex.toNat with
      | none => x.panic "index out of range"
      | some body =>
        let x := x.record (.encodeBody info.ResponseBodyIndex.toNat)
        match body.json with
        | .error err => HandleResponseError x req err
        | .ok text => { x with res := x.res.Write (text ++ "\n") }
  else x

/-- The part of `infoToDynamicAdaptor` after the error check: the `ToResponse` loop, then the
body. -/
def writeResults (info : Info) (req : Request) (results : List Result) (x : Exec) : Exec :=
  match toResponseLoop info req results 0 x with
  | .error x => x
  | .ok x => encodeResponseBody info req results x

/-- The part of `infoToDynamicAdaptor` after the call of the handler. -/
def processResults (info : Info) (req : Request) (results : List Result) (x : Exec) : Exec :=
  if info.LastIsError then
    match results.getLast? with
    | none => x.panic "index out of range"
    | some last =>
      let results := results.dropLast
      match last.err with
      | some err => HandleResponseError x req err
      | none => writeResults info req results x
  else writeResults info req results x

/-- The function `infoToDynamicAdaptor` of `plumbus.go`: the handler built for a function value
(`handler.Call`) and its `Info`, run on a request from the state `x`. -/
def infoToDynamicAdaptor (info : Info) (handler : List GoValue → List Result)
    (req : Request) (x : Exec) : Exec :=
  match bindInputs info req info.Inputs 0 [] x with
  | .error x => x
  | .ok (args, x) =>
    let x := x.record (.call args)
    let results := handler args
    processResults info req results x

/-! ## The generated adaptor of `RequestBodyHandler.adaptor-generated.go` -/

/-- The handler the generated adaptor for `func(*RequestBodyBody)` returns. `typ` is the type
`*RequestBodyBody`, whose declaration is in the handlers package. -/
def generatedRequestBodyAdaptor (typ : TypeDesc) (callback : List GoValue → List Result)
    (req : Request) (x : Exec) : Exec :=
  let x := x.record (.decodeBody 0)
  match typ.decode req.Body with
  | .error err =>
    let msg := "\x7b\"error\": \"decoding json: " ++ err.msg ++ "\"\x7d"
    x.afterHttpError (httpError x.res msg 400)
  | .ok arg0 =>
    let x := x.record (.call [arg0])
    let _ := callback [arg0]
    x

/-- The `Info` of the signature `func(*RequestBodyBody)`: one input, the request body; no
results. -/
def requestBodyInfo (typ : TypeDesc) : Info :=
  { Inputs := [{ Typ := typ, ConversionType := .ConvertBody, Name := "" }]
    Outputs := []
    IsPointer := fun _ => false
    RequestBodyIndex := 0
    ResponseBodyIndex := -1
    LastIsError := false }

/-! ## Building a handler and registering a route (`plumbus.go`) -/

/-- The value a panic carries: `HandlerFunc` panics with the string `fmt.Sprintf` returns,
`makeDynamicAdaptor` with an `error`. -/
inductive PanicValue
  | str (s : String)
  | err (e : GoError)
  deriving DecidableEq, Repr

/-- An `http.Handler`: what serving a request does to the state. -/
abbrev HttpHandler := Request → Exec → Exec

/-- The identity of a function type (a `reflect.Type` of kind `Func`), the key of `adaptors`. -/
structure FuncType where
  name : String
  deriving DecidableEq, Repr

/-- The type `func(http.ResponseWriter, *http.Request)`. -/
def rawFuncType : FuncType := ⟨"func(http.ResponseWriter, *http.Request)"⟩

/-- The values passed as `handler interface{}`, by the cases `HandlerFunc` distinguishes. The
method `compile` of `ByMethod` is in a file of its own; a method leaf carries what its `compile`
does. An `http.Handler` carries its function type when it is of kind `Func`. -/
inductive HandlerValue
  | nil
  | rawFunc (h : HttpHandler)
  | httpHandler (typ : Option FuncType) (h : HttpHandler)
  | byMethod (compile : Except PanicValue HttpHandler)
  | byMethodPtr (compile : Except PanicValue HttpHandler)
  | nonFunc (typ : String)
  | func (typ : FuncType) (name : String) (call : List GoValue → List Result)

/-- The type `adaptorFunc`. -/
abbrev adaptorFunc := HandlerValue → Except PanicValue HttpHandler

/-- The package state: the map `adaptors` and the lines logged. -/
structure Global where
  adaptors : List (FuncType × adaptorFunc)
  log : List String

/-- The assignment `adaptors[typ] = adaptor`. -/
def Global.setAdaptor (g : Global) (typ : FuncType) (adaptor : adaptorFunc) : Global :=
  { g with adaptors := (typ, adaptor) :: g.adaptors.filter (fun kv => kv.1 != typ) }

/-- The function `RegisterAdaptor`. -/
def RegisterAdaptor (g : Global) (typ : FuncType) (adaptor : adaptorFunc) : Global :=
  g.setAdaptor typ adaptor

/-- The function `makeDynamicAdaptor`. The classifier `generate.CollectInfo` is a parameter. -/
def makeDynamicAdaptor (CollectInfo : FuncType → Except GoError Info) (typ : FuncType) :
    adaptorFunc := fun handler =>
  let mismatch : Except PanicValue HttpHandler :=
    .error (.err ⟨"internal plumbus error. Mismatch of types.", none⟩)
  match handler with
  | .nil => .error (.err ⟨"reflect: call of reflect.Value.Type on zero Value", none⟩)
  | .func t _ call =>
    if typ ≠ t then mismatch
    else
      match CollectInfo typ with
      | .error err => .error (.err err)
      | .ok info => .ok (infoToDynamicAdaptor info call)
  | .rawFunc _ => mismatch
  | .httpHandler _ _ => mismatch
  | .byMethod _ => mismatch
  | .byMethodPtr _ => mismatch
  | .nonFunc _ => mismatch

/-- The function `HandlerFunc`: the handler built, or the value it panics with, and the package
state afterwards. -/
def HandlerFunc (CollectInfo : FuncType → Except GoError Info) (g : Global)
    (handler : HandlerValue) : Except PanicValue HttpHandler × Global :=
  match handler with
  | .rawFunc val => (.ok val, g)
  | .httpHandler _ val => (.ok val, g)
  | .byMethod compile => (compile, g)
  | .byMethodPtr compile => (compile, g)
  | .nil =>
    (.error (.err ⟨"runtime error: invalid memory address or nil pointer dereference", none⟩), g)
  | .nonFunc typ =>
    (.error (.str ("plumbus.HandlerFunc called on non-function type " ++ typ)), g)
  | .func typ name _ =>
    match g.adaptors.lookup typ with
    | some adaptor => (adaptor handler, g)
    | none =>
      let g := { g with log := g.log ++
        ["WARNING: using slow reflection adaptor for function: " ++ name,
         "NOTE   : annotate with `//go:generate plumbus <function name>` and run `go generate`"] }
      let adaptor := makeDynamicAdaptor CollectInfo typ
      let g := g.setAdaptor typ adaptor
      (adaptor handler, g)

/-- The route registry: the routes registered, each with the handler value given and the handler
built from it. -/
structure Paths where
  routes : List (String × HandlerValue × HttpHandler)

/-- Modelled from the spec: the method `Paths.Handle` of the route registry, which is not among
the source files. Registering a route runs the handler through the builder (`HandlerFunc`) and
stores the route; when the builder panics, nothing is stored and the panic goes on to the
caller. -/
def Paths.Handle (CollectInfo : FuncType → Except GoError Info) (paths : Paths) (g : Global)
    (route : String) (fn : HandlerValue) : Option PanicValue × Paths × Global :=
  match HandlerFunc CollectInfo g fn with
  | (.error v, g) => (some v, paths, g)
  | (.ok h, g) => (none, { routes := paths.routes ++ [(route, fn, h)] }, g)

/-- The type `ServeMux`. -/
structure ServeMux where
  Paths : Paths

/-- The function `NewServeMux`. -/
def NewServeMux : ServeMux := { Paths := { routes := [] } }

/-- The method `ServeMux.Handle`: the panic it ends with, if any, and the state afterwards. The
deferred function recovers whatever `sm.Paths.Handle` panicked with and panics again only when
the recovered value is an `error`. -/
def ServeMux.Handle (CollectInfo : FuncType → Except GoError Info) (sm : ServeMux) (g : Global)
    (route : String) (fn : HandlerValue) : Option PanicValue × ServeMux × Global :=
  match Paths.Handle CollectInfo sm.Paths g route fn with
  | (some (.err err), paths, g) =>
    (some (.err ⟨"Error while routing " ++ route ++ ": " ++ err.msg, none⟩), { Paths := paths }, g)
  | (some (.str _), paths, g) => (none, { Paths := paths }, g)
  | (none, paths, g) => (none, { Paths := paths }, g)

/-! ## The documentation extractor (`documentation.go`) -/

/-- The type `ParamInfo`. -/
structure ParamInfo where
  Typ : String
  Required : Bool
  Description : String
  deriving DecidableEq, Repr

/-- The type `Endpoint`; a nil map `Params` is the empty list. -/
structure Endpoint where
  Method : String
  Path : String
  Description : String
  RequestBody : String
  ResponseBody : String
  Params : List (String × ParamInfo)
  Notes : List String
  deriving DecidableEq, Repr

/-- The value `&Endpoint{}`. -/
def Endpoint.empty : Endpoint :=
  { Method := "", Path := "", Description := "", RequestBody := "", ResponseBody := "",
    Params := [], Notes := [] }

/-- The type `Type` of `documentation.go`: an entry of the type dictionary. -/
structure TypeEntry where
  Description : String
  Example : GoValue

/-- The type `Documentation`. -/
structure Documentation where
  Endpoints : List Endpoint
  Types : List (String × TypeEntry)
  Introduction : List String

/-- How `handlerFunctionToEndpoint` can end without an endpoint: a panic, or `log.Fatalf`. -/
inductive DocFailure
  | panic (v : PanicValue)
  | fatal (msg : String)
  deriving DecidableEq, Repr

/-- The function `strings.TrimLeft(s, "*")` on the characters of a string. -/
def trimLeftStars (s : List Char) : List Char :=
  s.dropWhile (fun c => c = '*')

/-- The function `typeName`. -/
def typeName (typ : TypeDesc) : String :=
  let name := typ.name
  let parts := splitOnChar '.' name.data
  let last := parts.getLast?.getD []
  String.mk (trimLeftStars last)

/-- The method `mkType`: the name of the type, and the dictionary with an entry for it. -/
def mkType (d : Documentation) (typ : TypeDesc) : String × Documentation :=
  let name := typeName typ
  match d.Types.lookup name with
  | some _ => (name, d)
  | none =>
    let exampleValue := (deepZero typ.shape).val
    let description :=
      match typ.documentation with
      | some doc => cleanupText doc
      | none => ""
    (name, { d with Types := d.Types ++ [(name, { Example := exampleValue, Description := description })] })

/-- The test `input.Type.Kind() != reflect.Ptr`. -/
def notPtr : GoType → Bool
  | .ptr _ => false
  | _ => true

/-- The assignment `e.Params[name] = p`. -/
def setParam (params : List (String × ParamInfo)) (name : String) (p : ParamInfo) :
    List (String × ParamInfo) :=
  params.filter (fun kv => kv.1 != name) ++ [(name, p)]

/-- The name of a conversion kind, as `%s` prints it. -/
def ConversionType.toString : ConversionType → String
  | .ConvertBody => "ConvertBody"
  | .ConvertCustom => "ConvertCustom"
  | .ConvertIntQueryParam => "ConvertIntQueryParam"
  | .ConvertStringQueryParam => "ConvertStringQueryParam"
  | .ConvertError => "ConvertError"

/-- The notes with the cleaned `Documentation()` of a type appended, when it has one. -/
def appendNote (notes : List String) (typ : TypeDesc) : List String :=
  match typ.documentation with
  | some doc => notes ++ [cleanupText doc]
  | none => notes

/-- The body of the loop of `handlerFunctionToEndpoint` over `info.Inputs`. -/
def documentInput (d : Documentation) (e : Endpoint) (input : Converter) :
    Except DocFailure (Endpoint × Documentation) :=
  let t := input.ConversionType
  match t with
  | .ConvertBody =>
    let out := mkType d input.Typ
    .ok ({ e with RequestBody := out.1 }, out.2)
  | .ConvertCustom => .ok ({ e with Notes := appendNote e.Notes input.Typ }, d)
  | .ConvertIntQueryParam | .ConvertStringQueryParam =>
    let p : ParamInfo := { Required := notPtr input.Typ.shape, Typ := "", Description := "" }
    let p :=
      match input.Typ.documentation with
      | some doc => { p with Description := cleanupText doc }
      | none => p
    let p :=
      if t = .ConvertIntQueryParam then { p with Typ := "string" }
      else { p with Typ := "integer" }
    .ok ({ e with Params := setParam e.Params input.Name p }, d)
  | .ConvertError => .error (.fatal ("unexpected conversion type " ++ t.toString))

/-- The body of the loop of `handlerFunctionToEndpoint` over `info.Outputs`. -/
def documentOutput (d : Documentation) (e : Endpoint) (output : Converter) :
    Except DocFailure (Endpoint × Documentation) :=
  let t := output.ConversionType
  match t with
  | .ConvertBody =>
    let out := mkType d output.Typ
    .ok ({ e with ResponseBody := out.1 }, out.2)
  | .ConvertCustom => .ok ({ e with Notes := appendNote e.Notes output.Typ }, d)
  | .ConvertError => .ok (e, d)
  | .ConvertIntQueryParam | .ConvertStringQueryParam =>
    .error (.fatal ("unexpected conversion type " ++ t.toString))

/-- A loop over converters that stops at the first failure. -/
def documentAll (step : Documentation → Endpoint → Converter →
    Except DocFailure (Endpoint × Documentation)) :
    List Converter → Documentation → Endpoint → Except DocFailure (Endpoint × Documentation)
  | [], d, e => .ok (e, d)
  | c :: rest, d, e =>
    match step d e c with
    | .error f => .error f
    | .ok (e, d) => documentAll step rest d e

/-- The function type of a handler value when `reflect.TypeOf(handler).Kind()` is `Func`. -/
def funcTypeOf : HandlerValue → Option FuncType
  | .rawFunc _ => some rawFuncType
  | .httpHandler typ _ => typ
  | .func typ _ _ => some typ
  | _ => none

/-- The method `handlerFunctionToEndpoint`: the endpoint and the documentation with the types it
added. The classifier `generate.CollectInfo` is a parameter. -/
def handlerFunctionToEndpoint (CollectInfo : FuncType → Except GoError Info)
    (d : Documentation) (handler : HandlerValue) : Except DocFailure (Endpoint × Documentation) :=
  match handler with
  | .nil =>
    .error (.panic (.err
      ⟨"runtime error: invalid memory address or nil pointer dereference", none⟩))
  | _ =>
    match funcTypeOf handler with
    | none => .ok (Endpoint.empty, d)
    | some typ =>
      match CollectInfo typ with
      | .error err =>
        .error (.panic (.err ⟨"error generating documentation: " ++ err.msg, none⟩))
      | .ok info =>
        let e := Endpoint.empty
        match documentAll documentInput info.Inputs d e with
        | .error f => .error f
        | .ok (e, d) => documentAll documentOutput info.Outputs d e

/-! ## Vocabulary for stating what the adaptor does -/

/-- The index of the input an event binds: the body decode and `FromRequest` calls. -/
def Event.inputIndex : Event → Option Nat
  | .decodeBody i => some i
  | .fromRequest i => some i
  | _ => none

/-- Whether an event is an output step: a `ToResponse` call or the encoding of the JSON body. -/
def Event.isOutput : Event → Bool
  | .toResponse _ => true
  | .encodeBody _ => true
  | _ => false

/-- Whether `encoding/json` writes a character of a string as it is: the character is not a
quote, a backslash, a control character, one of the characters escaped for HTML, or a Unicode
line or paragraph separator. -/
def jsonPlain (c : Char) : Bool :=
  !(c = '"' || c = '\\' || c.toNat < 0x20 || c = '<' || c = '>' || c = '&' ||
    c.toNat = 0x2028 || c.toNat = 0x2029)

/-- The results the output steps work on: all results but the final error when the signature
ends in an error. -/
def strippedResults (info : Info) (results : List Result) : List Result :=
  if info.LastIsError then results.dropLast else results

/-- The non-body results with their positions, in declaration order. -/
def nonBodyResults (info : Info) (results : List Result) : List (Nat × Result) :=
  results.enum.filter (fun p => decide ((p.1 : Int) ≠ info.ResponseBodyIndex))

/-- The response after the `ToResponse` of each listed result has run, one after the other, when
every one of them exists and returns no error. -/
def chainToResponse : List (Nat × Result) → ResponseWriter → Option ResponseWriter
  | [], r => some r
  | p :: rest, r =>
    match p.2.toResponse with
    | none => none
    | some f =>
      match (f r).2 with
      | some _ => none
      | none => chainToResponse rest (f r).1

/-- The `ToResponse` events of the listed results. -/
def toResponseEvents (l : List (Nat × Result)) : List Event :=
  l.map (fun p => Event.toResponse p.1)

/-! ## Concrete types, signatures and results -/

/-- The struct type `Foo` with one exported field `N int`. -/
def fooShape : GoType := .struct (.cons "N" true (.scalar .int) .nil)

/-- A decoder for `*Foo` on four request bodies: an empty body fails with the decoder's
end-of-input error, whose message is `EOF`. -/
def decodeFooPtr (body : String) : Except GoError GoValue :=
  if body = "" then .error ⟨"EOF", none⟩
  else if body = "null" then .ok .nilPtr
  else if body = "\x7b\"N\":3\x7d" then .ok (.ptr (.struct (.cons (.int 3) .nil)))
  else .error ⟨"invalid character", none⟩

/-- The body type `*Foo`. -/
def fooPtrType : TypeDesc :=
  { name := "*handlers.Foo", shape := .ptr fooShape, documentation := none,
    decode := decodeFooPtr, fromRequest := none }

/-- The body type `Foo`. -/
def fooType : TypeDesc :=
  { name := "handlers.Foo", shape := fooShape, documentation := none,
    decode := fun _ => .ok (zeroValue fooShape), fromRequest := none }

/-- The type `error`. -/
def errorType : TypeDesc :=
  { name := "error", shape := .scalar .string, documentation := none,
    decode := fun _ => .ok (.string ""), fromRequest := none }

/-- A custom input `Guard` whose `FromRequest` fails with an `HTTPError` of code 403. -/
def guardType : TypeDesc :=
  { name := "handlers.Guard", shape := .struct .nil, documentation := none,
    decode := fun _ => .ok (.struct .nil),
    fromRequest := some (fun _ => .error ⟨"forbidden", some 403⟩) }

/-- A custom output `Created`, documented, whose `ToResponse` sends status 201. -/
def createdType : TypeDesc :=
  { name := "handlers.Created", shape := .struct .nil, documentation := some " sends 201 \n",
    decode := fun _ => .ok (.struct .nil), fromRequest := none }

/-- A query parameter carrier: a type without the `FromRequest` capability (a type with it is a
custom input). -/
def queryParamType (name : String) (shape : GoType) : TypeDesc :=
  { name := name, shape := shape, documentation := none,
    decode := fun _ => .ok (zeroValue shape), fromRequest := none }

/-- A `Created` result. -/
def createdResult : Result :=
  { err := none, toResponse := some (fun w => ((w.WriteHeader 201).getD w, none)),
    json := .ok "\x7b\x7d" }

/-- A `Foo` result with `N = 3`. -/
def fooResult : Result :=
  { err := none, toResponse := none, json := .ok "\x7b\"N\":3\x7d" }

/-- A nil `error` result. -/
def nilErrorResult : Result :=
  { err := none, toResponse := none, json := .ok "null" }

/-- An `error` result that implements `HTTPError`: code 418, message `teapot`. -/
def teapotResult : Result :=
  { err := some ⟨"teapot", some 418⟩, toResponse := none, json := .ok "\x7b\x7d" }

/-- The `Info` of `func() error`. -/
def errorOnlyInfo : Info :=
  { Inputs := [], Outputs := [⟨errorType, .ConvertError, ""⟩], IsPointer := fun _ => false,
    RequestBodyIndex := -1, ResponseBodyIndex := -1, LastIsError := true }

/-- The `Info` of `func() (Created, Foo)`. -/
def createdFooInfo : Info :=
  { Inputs := [], Outputs := [⟨createdType, .ConvertCustom, ""⟩, ⟨fooType, .ConvertBody, ""⟩],
    IsPointer := fun _ => false, RequestBodyIndex := -1, ResponseBodyIndex := 1,
    LastIsError := false }

/-- The `Info` of `func(*Foo) (Created, Foo, error)`. -/
def bodyCreatedFooErrorInfo : Info :=
  { Inputs := [⟨fooPtrType, .ConvertBody, ""⟩],
    Outputs := [⟨createdType, .ConvertCustom, ""⟩, ⟨fooType, .ConvertBody, ""⟩,
      ⟨errorType, .ConvertError, ""⟩],
    IsPointer := fun _ => false, RequestBodyIndex := 0, ResponseBodyIndex := 1,
    LastIsError := true }

/-- The `Info` of `func(Guard, *Foo)`. -/
def guardedBodyInfo : Info :=
  { Inputs := [⟨guardType, .ConvertCustom, ""⟩, ⟨fooPtrType, .ConvertBody, ""⟩], Outputs := [],
    IsPointer := fun _ => false, RequestBodyIndex := 1, ResponseBodyIndex := -1,
    LastIsError := false }

/-- The `Info` of `func(IdParam) (Foo, error)`, `IdParam` a required string query parameter
named `id`. -/
def idParamInfo : Info :=
  { Inputs := [⟨queryParamType "handlers.IdParam" (.scalar .string), .ConvertStringQueryParam, "id"⟩],
    Outputs := [⟨fooType, .ConvertBody, ""⟩, ⟨errorType, .ConvertError, ""⟩],
    IsPointer := fun _ => false, RequestBodyIndex := -1, ResponseBodyIndex := 0,
    LastIsError := true }

/-- The `Info` of `func(PageParam) (Foo, error)`, `PageParam` a required integer query parameter
named `page`. -/
def pageParamInfo : Info :=
  { Inputs := [⟨queryParamType "handlers.PageParam" (.scalar .int), .ConvertIntQueryParam, "page"⟩],
    Outputs := [⟨fooType, .ConvertBody, ""⟩, ⟨errorType, .ConvertError, ""⟩],
    IsPointer := fun _ => false, RequestBodyIndex := -1, ResponseBodyIndex := 0,
    LastIsError := true }

/-- A classifier that knows the two query parameter signatures and rejects every other one. -/
def exampleCollectInfo (typ : FuncType) : Except GoError Info :=
  if typ.name = "func(handlers.IdParam) (handlers.Foo, error)" then .ok idParamInfo
  else if typ.name = "func(handlers.PageParam) (handlers.Foo, error)" then .ok pageParamInfo
  else .error ⟨"unsupported parameter", none⟩

/-- A documentation with nothing in it. -/
def Documentation.empty : Documentation := { Endpoints := [], Types := [], Introduction := [] }

/-- The endpoint of an outcome of `handlerFunctionToEndpoint`, if there is one. -/
def endpointOf (r : Except DocFailure (Endpoint × Documentation)) : Option Endpoint :=
  match r with
  | .ok (e, _) => some e
  | .error _ => none

/-! ## Text cleanup: idempotence -/

theorem trimSpaceChars_eq_rdropWhile (s : List Char) :
    trimSpaceChars s = (s.dropWhile isSpace).rdropWhile isSpace := rfl

theorem trimSpaceChars_sublist (s : List Char) : (trimSpaceChars s).Sublist s := by
  rw [trimSpaceChars_eq_rdropWhile]
  exact ((List.rdropWhile_prefix _ _).sublist).trans (List.dropWhile_suffix _).sublist

theorem dropWhile_of_initial (p : Char → Bool) (t a : List Char) (hpre : t <+: a)
    (ha : a.dropWhile p = a) : t.dropWhile p = t := by
  cases t with
  | nil => rfl
  | cons c t1 =>
    obtain ⟨u, hu⟩ := hpre
    subst hu
    have hc : p c = false := by
      by_contra h
      have h1 : p c = true := by simpa using h
      have h2 := congrArg List.length ha
      have h3 := (@List.dropWhile_suffix _ (t1 ++ u) p).length_le
      rw [List.cons_append, List.dropWhile_cons_of_pos h1, List.length_cons] at h2
      omega
    simp [List.dropWhile, hc]

theorem dropWhile_trimSpaceChars (s : List Char) :
    (trimSpaceChars s).dropWhile isSpace = trimSpaceChars s :=
  dropWhile_of_initial isSpace _ _ (List.rdropWhile_prefix _ _) (List.dropWhile_idempotent _ _)

theorem trimSpaceChars_idempotent (s : List Char) :
    trimSpaceChars (trimSpaceChars s) = trimSpaceChars s := by
  conv_lhs => rw [trimSpaceChars_eq_rdropWhile, dropWhile_trimSpaceChars]
  rw [trimSpaceChars_eq_rdropWhile]
  exact List.rdropWhile_idempotent _ _

theorem splitOnChar_of_not_mem (sep : Char) (s : List Char) (h : sep ∉ s) :
    splitOnChar sep s = [s] := by
  induction s with
  | nil => rfl
  | cons c cs ih =>
    have hc : c ≠ sep := fun e => h (by simp [e])
    have hcs : sep ∉ cs := fun e => h (List.mem_cons_of_mem _ e)
    simp [splitOnChar, hc, ih hcs]

theorem splitOnChar_pieces (sep : Char) (s : List Char) : ∀ l ∈ splitOnChar sep s, sep ∉ l := by
  induction s with
  | nil => simp [splitOnChar]
  | cons c cs ih =>
    unfold splitOnChar
    split
    · intro l hl
      rcases List.mem_cons.1 hl with h | h
      · simp [h]
      · exact ih l h
    · rename_i hc
      cases hs : splitOnChar sep cs with
      | nil =>
        intro l hl
        simp at hl
        subst hl
        simp [Ne.symm hc]
      | cons l0 ls =>
        rw [hs] at ih
        intro l hl
        simp only [List.mem_cons] at hl
        rcases hl with h | h
        · subst h
          intro hm
          rcases List.mem_cons.1 hm with h1 | h1
          · exact hc h1.symm
          · exact ih l0 (by simp) h1
        · exact ih l (by simp [h])

theorem joinSpace_no_newline (ls : List (List Char)) (h : ∀ l ∈ ls, '\n' ∉ l) :
    '\n' ∉ joinSpace ls := by
  induction ls with
  | nil => simp [joinSpace]
  | cons l ls ih =>
    cases ls with
    | nil => simpa [joinSpace] using h
    | cons l2 ls2 =>
      have h1 := h l (by simp)
      have h2 := ih (fun k hk => h k (List.mem_cons_of_mem _ hk))
      simp only [joinSpace, List.mem_append, List.mem_cons, not_or]
      exact ⟨h1, by decide, h2⟩

theorem cleanupChars_no_newline (s : List Char) : '\n' ∉ cleanupChars s := by
  intro h
  have h1 := (trimSpaceChars_sublist _).subset h
  refine joinSpace_no_newline _ ?_ h1
  intro l hl
  obtain ⟨l0, hl0, rfl⟩ := List.mem_map.1 hl
  exact fun hm => splitOnChar_pieces '\n' s l0 hl0 ((trimSpaceChars_sublist _).subset hm)

theorem cleanupChars_idempotent (s : List Char) :
    cleanupChars (cleanupChars s) = cleanupChars s := by
  have h := splitOnChar_of_not_mem '\n' _ (cleanupChars_no_newline s)
  have h2 : cleanupChars (cleanupChars s)
      = trimSpaceChars (joinSpace ((splitOnChar '\n' (cleanupChars s)).map trimSpaceChars)) := rfl
  rw [h2, h]
  simp only [List.map, joinSpace]
  have h3 : cleanupChars s
      = trimSpaceChars (joinSpace ((splitOnChar '\n' s).map trimSpaceChars)) := rfl
  rw [h3, trimSpaceChars_idempotent, trimSpaceChars_idempotent]

/-- C8: `cleanupText` is idempotent: cleaning a text that has already been cleaned (split on
newlines, every line trimmed, the lines joined with one space each, the result trimmed) gives the
same text. -/
theorem cleanupText_idempotent (x : String) : cleanupText (cleanupText x) = cleanupText x := by
  unfold cleanupText
  simp only [cleanupChars_idempotent]

/-! ## The error responder -/

theorem HandleResponseError_trace (x : Exec) (req : Request) (err : GoError) :
    (HandleResponseError x req err).trace = x.trace := by
  unfold HandleResponseError
  split
  · split <;> rfl
  · simp only [Exec.afterHttpError]
    split <;> rfl

theorem HandleResponseError_res_congr (x y : Exec) (req : Request) (err : GoError)
    (h : x.res = y.res) :
    (HandleResponseError x req err).res = (HandleResponseError y req err).res := by
  unfold HandleResponseError
  rw [h]
  split
  · split
    · exact h
    · rfl
  · simp only [Exec.afterHttpError]
    split <;> rfl

theorem validStatusCode_400 : validStatusCode 400 = true := by decide

theorem validStatusCode_500 : validStatusCode 500 = true := by decide

theorem httpError_ok (w : ResponseWriter) (text : String) (code : Int)
    (hv : validStatusCode code = true) :
    ∃ w1, httpError w text code = .ok w1 ∧
      w1.status = (if w.wroteHeader then w.status else code) ∧
      w1.body = w.body ++ (text ++ "\n") := by
  unfold httpError ResponseWriter.Write ResponseWriter.WriteHeader ResponseWriter.SetHeader
    ResponseWriter.commit
  by_cases h : w.wroteHeader = true <;> simp [h, hv]

theorem join_jsonEscapeChar_plain (l : List Char) (h : ∀ c ∈ l, jsonPlain c = true) :
    ∀ acc : String, (l.map jsonEscapeChar).foldl (fun r s => r ++ s) acc = acc ++ String.mk l := by
  induction l with
  | nil => intro acc; apply String.ext; simp
  | cons c cs ih =>
    intro acc
    have hc := h c (by simp)
    have hesc : jsonEscapeChar c = String.singleton c := by
      simp only [jsonPlain, Bool.not_eq_true', Bool.or_eq_false_iff, decide_eq_false_iff_not,
        not_lt] at hc
      obtain ⟨⟨⟨⟨⟨⟨⟨h1, h2⟩, h3⟩, h4⟩, h5⟩, h6⟩, h7⟩, h8⟩ := hc
      have h9 : c.toNat ≠ 0x08 := by omega
      have h10 : c.toNat ≠ 0x0C := by omega
      have h11 : c ≠ '\n' := by rintro rfl; revert h3; decide
      have h12 : c ≠ '\r' := by rintro rfl; revert h3; decide
      have h13 : c ≠ '\t' := by rintro rfl; revert h3; decide
      have h14 : ¬ c.toNat < 0x20 := by omega
      simp [jsonEscapeChar, h1, h2, h9, h10, h11, h12, h13, h14, h4, h5, h6, h7, h8]
    simp only [List.map, List.foldl, hesc]
    rw [ih (fun d hd => h d (List.mem_cons_of_mem _ hd))]
    apply String.ext
    simp [String.singleton]

theorem jsonQuote_plain (s : String) (h : ∀ c ∈ s.data, jsonPlain c = true) :
    jsonQuote s = "\"" ++ s ++ "\"" := by
  unfold jsonQuote String.join
  rw [join_jsonEscapeChar_plain s.data h ""]
  apply String.ext
  simp

/-- C1 (amended): what `HandleResponseError` does to the response. On a response whose status
has not been sent: an error that implements `HTTPError` with a `ResponseCode()` from 100 to 999
is answered with that code as status and the JSON object `{"error": <message>}` as one line (for
a message without characters to escape: the message between quotes); with a code outside 100..999
`WriteHeader` panics and nothing is written; every error that does not implement `HTTPError` is
answered with status 500 and the fixed text `{"error":"internal server error"}` and a newline, in
which the message does not occur. On a response whose status has been sent the status stays what
it was and the same line is added to the body. -/
theorem HandleResponseError_response (x : Exec) (req : Request) (err : GoError) :
    (∀ code, err.responseCode = some code → validStatusCode code = true →
      x.res.wroteHeader = false →
      (HandleResponseError x req err).res.status = code ∧
      (HandleResponseError x req err).res.body
        = x.res.body ++ ("\x7b\"error\":" ++ jsonQuote err.msg ++ "\x7d\n") ∧
      (HandleResponseError x req err).panicked = x.panicked ∧
      ((∀ c ∈ err.msg.data, jsonPlain c = true) →
        (HandleResponseError x req err).res.body
          = x.res.body ++ ("\x7b\"error\":\"" ++ err.msg ++ "\"\x7d\n"))) ∧
    (∀ code, err.responseCode = some code → validStatusCode code = false →
      x.res.wroteHeader = false →
      HandleResponseError x req err = x.panic "invalid WriteHeader code") ∧
    (err.responseCode = none → x.res.wroteHeader = false →
      (HandleResponseError x req err).res.status = 500 ∧
      (HandleResponseError x req err).res.body
        = x.res.body ++ "\x7b\"error\":\"internal server error\"\x7d\n" ∧
      (HandleResponseError x req err).panicked = x.panicked) ∧
    (x.res.wroteHeader = true →
      (HandleResponseError x req err).res.status = x.res.status ∧
      (HandleResponseError x req err).res.body
        = x.res.body ++
          (match err.responseCode with
            | some _ => "\x7b\"error\":" ++ jsonQuote err.msg ++ "\x7d\n"
            | none => "\x7b\"error\":\"internal server error\"\x7d\n") ∧
      (HandleResponseError x req err).panicked = x.panicked) := by
  refine ⟨?_, ?_, ?_, ?_⟩
  · intro code hcode hv hfresh
    have hbody : (HandleResponseError x req err).res.body
        = x.res.body ++ ("\x7b\"error\":" ++ jsonQuote err.msg ++ "\x7d\n") := by
      simp [HandleResponseError, hcode, ResponseWriter.Write, ResponseWriter.WriteHeader,
        ResponseWriter.commit, hfresh, hv, encodeErrorObject]
    refine ⟨?_, hbody, ?_, ?_⟩
    · simp [HandleResponseError, hcode, ResponseWriter.Write, ResponseWriter.WriteHeader,
        ResponseWriter.commit, hfresh, hv]
    · simp [HandleResponseError, hcode, ResponseWriter.WriteHeader, hfresh, hv]
    · intro hplain
      rw [hbody, jsonQuote_plain _ hplain]
      apply congrArg
      apply String.ext
      simp
  · intro code hcode hv hfresh
    simp [HandleResponseError, hcode, ResponseWriter.WriteHeader, hfresh, hv]
  · intro hnone hfresh
    obtain ⟨w1, h1, h2, h3⟩ := httpError_ok x.res "\x7b\"error\":\"internal server error\"\x7d"
      500 validStatusCode_500
    simp only [HandleResponseError, hnone, h1, Exec.afterHttpError]
    refine ⟨?_, ?_, ?_⟩
    · rw [h2]; simp [hfresh]
    · rw [h3]; rfl
    · trivial
  · intro hsent
    cases hcode : err.responseCode with
    | some code =>
      simp [HandleResponseError, hcode, ResponseWriter.Write, ResponseWriter.WriteHeader, hsent,
        encodeErrorObject]
    | none =>
      obtain ⟨w1, h1, h2, h3⟩ := httpError_ok x.res "\x7b\"error\":\"internal server error\"\x7d"
        500 validStatusCode_500
      simp only [HandleResponseError, hcode, h1, Exec.afterHttpError]
      refine ⟨?_, ?_, ?_⟩
      · rw [h2]; simp [hsent]
      · rw [h3]; rfl
      · trivial

/-- Witness of C1 (amended): an `HTTPError` with code 418 and message `teapot` on a fresh
response. -/
theorem HandleResponseError_response_witness :
    (HandleResponseError (Exec.start .fresh) ⟨"GET", "/x", "", ""⟩ ⟨"teapot", some 418⟩).res.status
        = 418 ∧
    (HandleResponseError (Exec.start .fresh) ⟨"GET", "/x", "", ""⟩ ⟨"teapot", some 418⟩).res.body
        = "\x7b\"error\":\"teapot\"\x7d\n" :=
  have h := (HandleResponseError_response (Exec.start .fresh) ⟨"GET", "/x", "", ""⟩
    ⟨"teapot", some 418⟩).1 418 rfl (by decide) rfl
  ⟨h.1, (h.2.2.2 (by decide)).trans (by decide)⟩

/-- Counterexample to C1 as stated: a `ToResponse` has sent status 201 and then fails with an
`HTTPError` of code 409; the status of the response stays 201, it is not the `ResponseCode()`.
And for an `HTTPError` whose `ResponseCode()` is -7, `WriteHeader` panics: the response has no
status and no body. -/
theorem HandleResponseError_counterexample :
    (HandleResponseError ⟨⟨[], true, 201, ""⟩, [], [], none⟩ ⟨"POST", "/x", "", ""⟩
        ⟨"conflict", some 409⟩).res.status = 201 ∧
    (HandleResponseError ⟨⟨[], true, 201, ""⟩, [], [], none⟩ ⟨"POST", "/x", "", ""⟩
        ⟨"conflict", some 409⟩).res.status ≠ 409 ∧
    (HandleResponseError (Exec.start .fresh) ⟨"GET", "/x", "", ""⟩ ⟨"bad", some (-7)⟩).res
        = .fresh ∧
    (HandleResponseError (Exec.start .fresh) ⟨"GET", "/x", "", ""⟩ ⟨"bad", some (-7)⟩).panicked
        = some "invalid WriteHeader code" := by
  refine ⟨by decide, by decide, by decide, by decide⟩

/-! ## The reflective adaptor -/

theorem bindCustom_ok (typ : TypeDesc) (i : Nat) (req : Request) (x x1 : Exec) (arg : GoValue)
    (h : bindCustom typ i req x = .ok (arg, x1)) : x1 = x.record (.fromRequest i) := by
  unfold bindCustom at h
  split at h
  · cases h
  · split at h
    · cases h
    · cases h; rfl

theorem bindInputs_ok (info : Info) (req : Request) (inputs : List Converter) :
    ∀ (i : Nat) (args : List GoValue) (x : Exec) (args1 : List GoValue) (x1 : Exec),
      bindInputs info req inputs i args x = .ok (args1, x1) →
      x1.res = x.res ∧ x1.log = x.log ∧ x1.panicked = x.panicked ∧
      ∃ evs, x1.trace = x.trace ++ evs ∧
        ∀ e ∈ evs, ∃ j, e.inputIndex = some j ∧ i ≤ j ∧ j < i + inputs.length := by
  induction inputs with
  | nil =>
    intro i args x args1 x1 h
    simp only [bindInputs, Except.ok.injEq, Prod.mk.injEq] at h
    obtain ⟨-, rfl⟩ := h
    exact ⟨rfl, rfl, rfl, [], by simp, by simp⟩
  | cons inp rest ih =>
    intro i args x args1 x1 h
    have key : ∀ (ev : Event) (arg : GoValue), ev.inputIndex = some i →
        bindInputs info req rest (i + 1) (args ++ [arg]) (x.record ev) = .ok (args1, x1) →
        x1.res = x.res ∧ x1.log = x.log ∧ x1.panicked = x.panicked ∧
        ∃ evs, x1.trace = x.trace ++ evs ∧
          ∀ e ∈ evs, ∃ j, e.inputIndex = some j ∧ i ≤ j ∧ j < i + (inp :: rest).length := by
      intro ev arg hev h1
      obtain ⟨h2, h3, h4, evs, h5, h6⟩ := ih _ _ _ _ _ h1
      refine ⟨h2, h3, h4, ev :: evs, ?_, ?_⟩
      · rw [h5]; simp [Exec.record]
      · intro e he
        rcases List.mem_cons.1 he with rfl | he
        · exact ⟨i, hev, le_refl _, by simp⟩
        · obtain ⟨j, hj1, hj2, hj3⟩ := h6 e he
          exact ⟨j, hj1, by omega, by simp only [List.length_cons]; omega⟩
    unfold bindInputs at h
    simp only at h
    split at h
    · split at h
      · cases h
      · exact key (.decodeBody i) _ rfl h
    · split at h
      · split at h
        · cases h
        · rename_i hb
          rw [bindCustom_ok _ _ _ _ _ _ hb] at h
          exact key (.fromRequest i) _ rfl h
      · split at h
        · cases h
        · rename_i hb
          rw [bindCustom_ok _ _ _ _ _ _ hb] at h
          exact key (.fromRequest i) _ rfl h

theorem bindInputs_append (info : Info) (req : Request) (pre rest : List Converter) :
    ∀ (i : Nat) (args : List GoValue) (x : Exec),
      bindInputs info req (pre ++ rest) i args x =
        match bindInputs info req pre i args x with
        | .error x1 => .error x1
        | .ok (args1, x1) => bindInputs info req rest (i + pre.length) args1 x1 := by
  induction pre with
  | nil => intro i args x; simp [bindInputs]
  | cons inp pre ih =>
    intro i args x
    have hlen : i + (inp :: pre).length = i + 1 + pre.length := by
      simp only [List.length_cons]; omega
    rw [hlen]
    simp only [List.cons_append, bindInputs]
    split
    · split
      · rfl
      · exact ih _ _ _
    · split
      · split
        · rfl
        · exact ih _ _ _
      · split
        · rfl
        · exact ih _ _ _

theorem adaptor_of_bound (info : Info) (handler : List GoValue → List Result) (req : Request)
    (x x1 : Exec) (args : List GoValue)
    (hbind : bindInputs info req info.Inputs 0 [] x = .ok (args, x1)) :
    infoToDynamicAdaptor info handler req x
      = processResults info req (handler args) (x1.record (.call args)) := by
  unfold infoToDynamicAdaptor
  rw [hbind]

/-- C3 (amended): when input `i` is the body input, the inputs before it bind, and the body of
the request fails to decode with message `m`, the adaptor answers, on a response whose status has
not been sent yet, with status 400 and the body `{"error": "decoding json: m"}` followed by a
newline (a space follows the first colon), and stops: every call made binds an input up to `i`,
so no later input is bound and the handler is not called. -/
theorem decode_failure_response (info : Info) (handler : List GoValue → List Result)
    (req : Request) (res : ResponseWriter) (pre post : List Converter) (inp : Converter)
    (args : List GoValue) (x1 : Exec) (err : GoError)
    (hfresh : res.wroteHeader = false)
    (hin : info.Inputs = pre ++ inp :: post)
    (hidx : (pre.length : Int) = info.RequestBodyIndex)
    (hpre : bindInputs info req pre 0 [] (Exec.start res) = .ok (args, x1))
    (hdec : inp.Typ.decode req.Body = .error err) :
    (infoToDynamicAdaptor info handler req (Exec.start res)).res.status = 400 ∧
    (infoToDynamicAdaptor info handler req (Exec.start res)).res.body
      = res.body ++ ("\x7b\"error\": \"decoding json: " ++ err.msg ++ "\"\x7d" ++ "\n") ∧
    (infoToDynamicAdaptor info handler req (Exec.start res)).panicked = none ∧
    ∀ e ∈ (infoToDynamicAdaptor info handler req (Exec.start res)).trace,
      ∃ j, e.inputIndex = some j ∧ j ≤ pre.length := by
  obtain ⟨hr, -, hp, evs, htr, hevs⟩ := bindInputs_ok info req _ _ _ _ _ _ hpre
  have hrun : infoToDynamicAdaptor info handler req (Exec.start res)
      = decodeFailure (x1.record (.decodeBody pre.length)) err := by
    unfold infoToDynamicAdaptor
    rw [hin, bindInputs_append, hpre]
    simp only [bindInputs, Nat.zero_add, hidx, if_true, hdec]
  rw [hrun]
  have hres : (x1.record (.decodeBody pre.length)).res = res := hr
  obtain ⟨w1, h1, h2, h3⟩ := httpError_ok res
    ("\x7b\"error\": \"decoding json: " ++ err.msg ++ "\"\x7d") 400 validStatusCode_400
  simp only [decodeFailure, hres, h1, Exec.afterHttpError]
  refine ⟨?_, ?_, ?_, ?_⟩
  · rw [h2]; simp [hfresh]
  · rw [h3]
  · simpa [Exec.record, Exec.start] using hp
  · intro e he
    simp only [Exec.record, htr, Exec.start, List.nil_append, List.mem_append,
      List.mem_singleton] at he
    rcases he with he | rfl
    · obtain ⟨j, hj, -, hlt⟩ := hevs e he
      exact ⟨j, hj, by omega⟩
    · exact ⟨pre.length, rfl, le_refl _⟩

/-- C5: for the signature `func(*RequestBodyBody)` with no results, the generated adaptor and
the reflective adaptor (an `Info` with one input, the request body at index 0, no response body,
no final error) end in the same state on every request and for every handler of that signature:
the same status, headers and body, the same log, and the same calls, among them the call of the
handler with the same decoded argument, or no call of it. -/
theorem generated_eq_reflective (info : Info) (c : Converter)
    (handler : List GoValue → List Result) (req : Request) (x : Exec)
    (hin : info.Inputs = [c]) (hreq : info.RequestBodyIndex = 0)
    (hresp : info.ResponseBodyIndex = -1) (hlast : info.LastIsError = false)
    (hsig : ∀ args, handler args = []) :
    generatedRequestBodyAdaptor c.Typ handler req x = infoToDynamicAdaptor info handler req x := by
  unfold generatedRequestBodyAdaptor infoToDynamicAdaptor
  simp only [hin, bindInputs, hreq, Nat.cast_zero, if_true]
  cases hdec : c.Typ.decode req.Body with
  | error err => rfl
  | ok arg =>
    simp [hsig, processResults, hlast, writeResults, toResponseLoop, encodeResponseBody, hresp]

theorem filter_enumFrom_cons (info : Info) (v : Result) (rest : List Result) (i : Nat) :
    ((v :: rest).enumFrom i).filter (fun p => decide ((p.1 : Int) ≠ info.ResponseBodyIndex))
      = if (i : Int) = info.ResponseBodyIndex then
          (rest.enumFrom (i + 1)).filter (fun p => decide ((p.1 : Int) ≠ info.ResponseBodyIndex))
        else (i, v) ::
          (rest.enumFrom (i + 1)).filter (fun p => decide ((p.1 : Int) ≠ info.ResponseBodyIndex)) := by
  by_cases h : (i : Int) = info.ResponseBodyIndex <;> simp [List.enumFrom, List.filter, h]

theorem toResponseLoop_ok (info : Info) (req : Request) (results : List Result) :
    ∀ (i : Nat) (x : Exec) (r1 : ResponseWriter),
      chainToResponse ((results.enumFrom i).filter
        (fun p => decide ((p.1 : Int) ≠ info.ResponseBodyIndex))) x.res = some r1 →
      toResponseLoop info req results i x
        = .ok { x with res := r1, trace := x.trace ++ toResponseEvents ((results.enumFrom i).filter
            (fun p => decide ((p.1 : Int) ≠ info.ResponseBodyIndex))) } := by
  induction results with
  | nil =>
    intro i x r1 h
    simp only [List.enumFrom, List.filter, chainToResponse, Option.some.injEq] at h
    subst h
    simp [toResponseLoop, toResponseEvents]
  | cons v rest ih =>
    intro i x r1 h
    rw [filter_enumFrom_cons] at h ⊢
    unfold toResponseLoop
    by_cases hi : (i : Int) = info.ResponseBodyIndex
    · simp only [hi, if_true] at h ⊢
      exact ih _ _ _ h
    · simp only [hi, if_false] at h ⊢
      simp only [chainToResponse] at h
      cases hf : v.toResponse with
      | none => simp [hf] at h
      | some f =>
        simp only [hf] at h ⊢
        cases he : (f x.res).2 with
        | some e => simp [he] at h
        | none =>
          simp only [he] at h ⊢
          have := ih (i + 1) ⟨(f x.res).1, x.log, x.trace ++ [Event.toResponse i], x.panicked⟩
            r1 h
          simp only [Exec.record, he]
          rw [this]
          simp [toResponseEvents]

theorem toResponseLoop_fail (info : Info) (req : Request) (results : List Result) :
    ∀ (i : Nat) (x : Exec) (pre post : List (Nat × Result)) (k : Nat) (v : Result)
      (f : ResponseWriter → ResponseWriter × Option GoError) (r1 : ResponseWriter) (e : GoError),
      (results.enumFrom i).filter (fun p => decide ((p.1 : Int) ≠ info.ResponseBodyIndex))
        = pre ++ (k, v) :: post →
      chainToResponse pre x.res = some r1 →
      v.toResponse = some f →
      (f r1).2 = some e →
      toResponseLoop info req results i x
        = .error (HandleResponseError
            ⟨(f r1).1, x.log, x.trace ++ toResponseEvents pre ++ [Event.toResponse k], x.panicked⟩
            req e) := by
  induction results with
  | nil =>
    intro i x pre post k v f r1 e h
    simp [List.enumFrom] at h
  | cons w rest ih =>
    intro i x pre post k v f r1 e h hpre hf he
    rw [filter_enumFrom_cons] at h
    unfold toResponseLoop
    by_cases hi : (i : Int) = info.ResponseBodyIndex
    · simp only [hi, if_true] at h ⊢
      exact ih _ _ _ _ _ _ _ _ _ h hpre hf he
    · simp only [hi, if_false] at h ⊢
      cases pre with
      | nil =>
        simp only [List.nil_append, List.cons.injEq, Prod.mk.injEq] at h
        obtain ⟨⟨rfl, rfl⟩, -⟩ := h
        simp only [chainToResponse, Option.some.injEq] at hpre
        subst hpre
        simp [hf, he, Exec.record, toResponseEvents]
      | cons p pre1 =>
        simp only [List.cons_append, List.cons.injEq] at h
        obtain ⟨rfl, h⟩ := h
        simp only [chainToResponse] at hpre
        cases hg : w.toResponse with
        | none => simp [hg] at hpre
        | some g =>
          simp only [hg] at hpre ⊢
          cases hge : (g x.res).2 with
          | some e1 => simp [hge] at hpre
          | none =>
            simp only [hge] at hpre ⊢
            have := ih (i + 1) ⟨(g x.res).1, x.log, x.trace ++ [Event.toResponse i], x.panicked⟩
              pre1 post k v f r1 e h hpre hf he
            simp only [Exec.record, hge]
            rw [this]
            simp [toResponseEvents]

theorem adaptor_of_nil_error (info : Info) (handler : List GoValue → List Result) (req : Request)
    (x x1 : Exec) (args : List GoValue)
    (hbind : bindInputs info req info.Inputs 0 [] x = .ok (args, x1))
    (hnil : info.LastIsError = true →
      ∃ last, (handler args).getLast? = some last ∧ last.err = none) :
    infoToDynamicAdaptor info handler req x
      = writeResults info req (strippedResults info (handler args)) (x1.record (.call args)) := by
  rw [adaptor_of_bound info handler req _ _ _ hbind]
  unfold processResults strippedResults
  by_cases hl : info.LastIsError = true
  · obtain ⟨last, h1, h2⟩ := hnil hl
    simp only [hl, h1, h2, if_true]
  · simp only [hl]
    rfl

/-- C4: on a request whose inputs bind and whose final error, if the signature has one, is nil,
the adaptor runs the `ToResponse` of the non-body results in declaration order, each on the
response the one before left, and only after all of them writes the JSON encoding of the body
result (when there is one) after whatever they wrote; when the `ToResponse` of result `k` fails,
the adaptor ends in `HandleResponseError` on the response that call left, having called no later
`ToResponse` and not having encoded the body. -/
theorem outputs_in_declaration_order (info : Info) (handler : List GoValue → List Result)
    (req : Request) (res : ResponseWriter) (args : List GoValue) (x1 : Exec)
    (hbind : bindInputs info req info.Inputs 0 [] (Exec.start res) = .ok (args, x1))
    (hnil : info.LastIsError = true →
      ∃ last, (handler args).getLast? = some last ∧ last.err = none) :
    (∀ r1, chainToResponse (nonBodyResults info (strippedResults info (handler args))) res
        = some r1 →
      (info.ResponseBodyIndex = -1 →
        infoToDynamicAdaptor info handler req (Exec.start res)
          = ⟨r1, x1.log, x1.trace ++ [Event.call args] ++
              toResponseEvents (nonBodyResults info (strippedResults info (handler args))),
              x1.panicked⟩) ∧
      (∀ body text, 0 ≤ info.ResponseBodyIndex →
        (strippedResults info (handler args)).get? info.ResponseBodyIndex.toNat = some body →
        body.json = .ok text →
        infoToDynamicAdaptor info handler req (Exec.start res)
          = ⟨r1.Write (text ++ "\n"), x1.log, x1.trace ++ [Event.call args] ++
              toResponseEvents (nonBodyResults info (strippedResults info (handler args))) ++
              [Event.encodeBody info.ResponseBodyIndex.toNat], x1.panicked⟩ ∧
        (r1.Write (text ++ "\n")).body = r1.body ++ (text ++ "\n"))) ∧
    (∀ pre post k v f r1 e,
      nonBodyResults info (strippedResults info (handler args)) = pre ++ (k, v) :: post →
      chainToResponse pre res = some r1 →
      v.toResponse = some f →
      (f r1).2 = some e →
      infoToDynamicAdaptor info handler req (Exec.start res)
        = HandleResponseError
            ⟨(f r1).1, x1.log, x1.trace ++ [Event.call args] ++ toResponseEvents pre ++
              [Event.toResponse k], x1.panicked⟩ req e) := by
  have hrun := adaptor_of_nil_error info handler req _ _ _ hbind hnil
  obtain ⟨hr, -, -, -⟩ := bindInputs_ok info req _ _ _ _ _ _ hbind
  have hres : (x1.record (.call args)).res = res := hr
  constructor
  · intro r1 hchain
    have hloop := toResponseLoop_ok info req (strippedResults info (handler args)) 0
      (x1.record (.call args)) r1 (by rw [hres]; exact hchain)
    constructor
    · intro hidx
      rw [hrun]
      unfold writeResults
      rw [hloop]
      simp [encodeResponseBody, hidx, Exec.record, nonBodyResults, List.enum]
    · intro body text hpos hget hjson
      refine ⟨?_, ?_⟩
      · rw [hrun]
        unfold writeResults
        rw [hloop]
        have hne : info.ResponseBodyIndex ≠ -1 := by omega
        have hlt : ¬ info.ResponseBodyIndex < 0 := by omega
        rw [List.get?_eq_getElem?] at hget
        simp [encodeResponseBody, hne, hlt, hget, hjson, Exec.record, nonBodyResults, List.enum]
      · unfold ResponseWriter.Write ResponseWriter.commit
        by_cases hw : r1.wroteHeader = true <;> simp [hw]
  · intro pre post k v f r1 e hsplit hchain hf he
    have hloop := toResponseLoop_fail info req (strippedResults info (handler args)) 0
      (x1.record (.call args)) pre post k v f r1 e hsplit (by rw [hres]; exact hchain) hf he
    rw [hrun]
    unfold writeResults
    rw [hloop]
    simp [Exec.record]

/-- Witness of C4: `func() (Created, Foo)`; the `ToResponse` of `Created` sends status 201, the
JSON body follows. -/
theorem outputs_in_declaration_order_witness :
    infoToDynamicAdaptor createdFooInfo (fun _ => [createdResult, fooResult])
        ⟨"GET", "/x", "", ""⟩ (Exec.start .fresh)
      = ⟨⟨[], true, 201, "\x7b\"N\":3\x7d\n"⟩, [],
          [Event.call [], Event.toResponse 0, Event.encodeBody 1], none⟩ :=
  (((outputs_in_declaration_order createdFooInfo (fun _ => [createdResult, fooResult])
    ⟨"GET", "/x", "", ""⟩ .fresh [] (Exec.start .fresh) rfl (fun h => by cases h)).1
    ⟨[], true, 201, ""⟩ rfl).2 fooResult "\x7b\"N\":3\x7d" (by decide) rfl rfl).1

theorem writeResults_of_chain (info : Info) (req : Request) (results : List Result) (x : Exec)
    (r1 : ResponseWriter)
    (hchain : chainToResponse (nonBodyResults info results) x.res = some r1) :
    (info.ResponseBodyIndex = -1 →
      writeResults info req results x
        = ⟨r1, x.log, x.trace ++ toResponseEvents (nonBodyResults info results), x.panicked⟩) ∧
    (∀ body text, 0 ≤ info.ResponseBodyIndex →
      results.get? info.ResponseBodyIndex.toNat = some body →
      body.json = .ok text →
      writeResults info req results x
        = ⟨r1.Write (text ++ "\n"), x.log,
            x.trace ++ toResponseEvents (nonBodyResults info results) ++
              [Event.encodeBody info.ResponseBodyIndex.toNat], x.panicked⟩) := by
  have hloop := toResponseLoop_ok info req results 0 x r1 hchain
  constructor
  · intro hidx
    unfold writeResults
    rw [hloop]
    simp [encodeResponseBody, hidx, nonBodyResults, List.enum]
  · intro body text hpos hget hjson
    unfold writeResults
    rw [hloop]
    have hne : info.ResponseBodyIndex ≠ -1 := by omega
    have hlt : ¬ info.ResponseBodyIndex < 0 := by omega
    rw [List.get?_eq_getElem?] at hget
    simp [encodeResponseBody, hne, hlt, hget, hjson, Exec.record, nonBodyResults, List.enum]

/-- C2: when the signature ends in an error (`LastIsError`) and, on a request whose inputs bind,
the final result of the handler is a non-nil error, the adaptor ends in the state
`HandleResponseError` produces for that error right after the call: the response is the one
`HandleResponseError` writes on the response the adaptor was given, and the calls made are those
that bound the inputs and the call of the handler, none of them a `ToResponse` or the encoding of
a JSON body. When the final error is nil, the adaptor goes on: it runs the `ToResponse` of every
non-body result before the error, in order, and then writes the JSON encoding of the body
result, and the calls made say so. -/
theorem lastError_short_circuits (info : Info) (handler : List GoValue → List Result)
    (req : Request) (res : ResponseWriter) (args : List GoValue) (x1 : Exec) (last : Result)
    (hlast : info.LastIsError = true)
    (hbind : bindInputs info req info.Inputs 0 [] (Exec.start res) = .ok (args, x1))
    (hres : (handler args).getLast? = some last) :
    (∀ err, last.err = some err →
      infoToDynamicAdaptor info handler req (Exec.start res)
        = HandleResponseError (x1.record (.call args)) req err ∧
      (infoToDynamicAdaptor info handler req (Exec.start res)).res
        = (HandleResponseError (Exec.start res) req err).res ∧
      ∀ e ∈ (infoToDynamicAdaptor info handler req (Exec.start res)).trace,
        e.isOutput = false) ∧
    (last.err = none →
      infoToDynamicAdaptor info handler req (Exec.start res)
        = writeResults info req (handler args).dropLast (x1.record (.call args)) ∧
      ∀ r1, chainToResponse (nonBodyResults info (handler args).dropLast) res = some r1 →
        (info.ResponseBodyIndex = -1 →
          infoToDynamicAdaptor info handler req (Exec.start res)
            = ⟨r1, x1.log, x1.trace ++ [Event.call args] ++
                toResponseEvents (nonBodyResults info (handler args).dropLast), x1.panicked⟩) ∧
        (∀ body text, 0 ≤ info.ResponseBodyIndex →
          (handler args).dropLast.get? info.ResponseBodyIndex.toNat = some body →
          body.json = .ok text →
          infoToDynamicAdaptor info handler req (Exec.start res)
            = ⟨r1.Write (text ++ "\n"), x1.log, x1.trace ++ [Event.call args] ++
                toResponseEvents (nonBodyResults info (handler args).dropLast) ++
                [Event.encodeBody info.ResponseBodyIndex.toNat], x1.panicked⟩)) := by
  have hrun := adaptor_of_bound info handler req _ _ _ hbind
  obtain ⟨hr, -, -, evs, htr, hevs⟩ := bindInputs_ok info req _ _ _ _ _ _ hbind
  have hx : (x1.record (.call args)).res = res := hr
  constructor
  · intro err herr
    have h1 : infoToDynamicAdaptor info handler req (Exec.start res)
        = HandleResponseError (x1.record (.call args)) req err := by
      rw [hrun]
      simp only [processResults, hlast, hres, herr, if_true]
    refine ⟨h1, ?_, ?_⟩
    · rw [h1]
      exact HandleResponseError_res_congr _ _ _ _ hx
    · rw [h1, HandleResponseError_trace]
      intro e he
      simp only [Exec.record, htr, Exec.start, List.nil_append, List.mem_append,
        List.mem_singleton] at he
      rcases he with he | rfl
      · obtain ⟨j, hj, -⟩ := hevs e he
        cases e <;> simp_all [Event.inputIndex, Event.isOutput]
      · rfl
  · intro hnil
    have h2 : infoToDynamicAdaptor info handler req (Exec.start res)
        = writeResults info req (handler args).dropLast (x1.record (.call args)) := by
      rw [hrun]
      simp only [processResults, hlast, hres, hnil, if_true]
    refine ⟨h2, ?_⟩
    intro r1 hchain
    obtain ⟨ha, hb⟩ := writeResults_of_chain info req (handler args).dropLast
      (x1.record (.call args)) r1 (by rw [hx]; exact hchain)
    constructor
    · intro hidx
      rw [h2, ha hidx]
      simp [Exec.record]
    · intro body text hpos hget hjson
      rw [h2, hb body text hpos hget hjson]
      simp [Exec.record]

/-- Witness of C2: `func(*Foo) (Created, Foo, error)` on the body `null`. When the handler
returns a `Created`, a `Foo` and an `HTTPError` with code 418, the answer is the one of the
error: status 418, not the 201 of `Created`, and no `Foo` in the body. When it returns a nil
error, `Created` sends 201 and the `Foo` is the body. -/
theorem lastError_short_circuits_witness :
    infoToDynamicAdaptor bodyCreatedFooErrorInfo (fun _ => [createdResult, fooResult, teapotResult])
        ⟨"POST", "/x", "", "null"⟩ (Exec.start .fresh)
      = ⟨⟨[], true, 418, "\x7b\"error\":\"teapot\"\x7d\n"⟩, [],
          [Event.decodeBody 0, Event.call [GoValue.nilPtr]], none⟩ ∧
    infoToDynamicAdaptor bodyCreatedFooErrorInfo
        (fun _ => [createdResult, fooResult, nilErrorResult])
        ⟨"POST", "/x", "", "null"⟩ (Exec.start .fresh)
      = ⟨⟨[], true, 201, "\x7b\"N\":3\x7d\n"⟩, [],
          [Event.decodeBody 0, Event.call [GoValue.nilPtr], Event.toResponse 0,
            Event.encodeBody 1], none⟩ :=
  ⟨((lastError_short_circuits bodyCreatedFooErrorInfo
      (fun _ => [createdResult, fooResult, teapotResult]) ⟨"POST", "/x", "", "null"⟩ .fresh
      [GoValue.nilPtr] ((Exec.start .fresh).record (.decodeBody 0)) teapotResult rfl rfl rfl).1
      ⟨"teapot", some 418⟩ rfl).1.trans rfl,
   (((lastError_short_circuits bodyCreatedFooErrorInfo
      (fun _ => [createdResult, fooResult, nilErrorResult]) ⟨"POST", "/x", "", "null"⟩ .fresh
      [GoValue.nilPtr] ((Exec.start .fresh).record (.decodeBody 0)) nilErrorResult rfl rfl rfl).2
      rfl).2 ⟨[], true, 201, ""⟩ rfl).2 fooResult "\x7b\"N\":3\x7d" (by decide) rfl rfl⟩

/-- Counterexample to C3 as stated: on an empty request body the decoder fails with message
`EOF`, and the body of the response is not the text `{"error":"decoding json: EOF"}`: a space
follows the first colon and a newline ends the line. And when an input before the body input
fails, the answer is the one of that failure (here status 403), not 400. -/
theorem decode_failure_counterexample :
    (infoToDynamicAdaptor (requestBodyInfo fooPtrType) (fun _ => []) ⟨"POST", "/x", "", ""⟩
        (Exec.start .fresh)).res.body = "\x7b\"error\": \"decoding json: EOF\"\x7d\n" ∧
    (infoToDynamicAdaptor (requestBodyInfo fooPtrType) (fun _ => []) ⟨"POST", "/x", "", ""⟩
        (Exec.start .fresh)).res.body ≠ "\x7b\"error\":\"decoding json: EOF\"\x7d" ∧
    (infoToDynamicAdaptor guardedBodyInfo (fun _ => []) ⟨"POST", "/x", "", ""⟩
        (Exec.start .fresh)).res.status = 403 := by
  refine ⟨by decide, by decide, by decide⟩

/-- Witness of C3 (amended): the signature `func(*Foo)` on an empty request body. -/
theorem decode_failure_response_witness :
    (infoToDynamicAdaptor (requestBodyInfo fooPtrType) (fun _ => []) ⟨"POST", "/x", "", ""⟩
        (Exec.start .fresh)).res.status = 400 ∧
    (infoToDynamicAdaptor (requestBodyInfo fooPtrType) (fun _ => []) ⟨"POST", "/x", "", ""⟩
        (Exec.start .fresh)).res.body = "\x7b\"error\": \"decoding json: EOF\"\x7d\n" :=
  have h := decode_failure_response (requestBodyInfo fooPtrType) (fun _ => [])
    ⟨"POST", "/x", "", ""⟩ .fresh [] [] ⟨fooPtrType, .ConvertBody, ""⟩ [] (Exec.start .fresh)
    ⟨"EOF", none⟩ rfl rfl rfl rfl rfl
  ⟨h.1, h.2.1.trans (by decide)⟩

/-- Witness of C5: the generated and the reflective adaptor of `func(*Foo)` on the body `null`. -/
theorem generated_eq_reflective_witness :
    generatedRequestBodyAdaptor fooPtrType (fun _ => []) ⟨"POST", "/x", "", "null"⟩
        (Exec.start .fresh)
      = infoToDynamicAdaptor (requestBodyInfo fooPtrType) (fun _ => []) ⟨"POST", "/x", "", "null"⟩
        (Exec.start .fresh) :=
  generated_eq_reflective (requestBodyInfo fooPtrType) ⟨fooPtrType, .ConvertBody, ""⟩
    (fun _ => []) ⟨"POST", "/x", "", "null"⟩ (Exec.start .fresh) rfl rfl rfl rfl (fun _ => rfl)

/-! ## Registration -/

theorem Handle_wraps_error_panic (CollectInfo : FuncType → Except GoError Info) (sm : ServeMux)
    (g : Global) (route : String) (typ : FuncType) (name : String)
    (call : List GoValue → List Result) (err : GoError)
    (hnew : g.adaptors.lookup typ = none) (hrej : CollectInfo typ = .error err) :
    (ServeMux.Handle CollectInfo sm g route (.func typ name call)).1
      = some (.err ⟨"Error while routing " ++ route ++ ": " ++ err.msg, none⟩) := by
  simp [ServeMux.Handle, Paths.Handle, HandlerFunc, hnew, makeDynamicAdaptor, hrej]

/-- C6 (what the code does): `HandlerFunc` panics on a value that is not a function with a
string, not an `error`; the deferred function of `ServeMux.Handle` recovers it and does not panic
again, so `Handle` returns normally, with no route registered and nothing reported. -/
theorem Handle_drops_nonFunc_panic (CollectInfo : FuncType → Except GoError Info)
    (sm : ServeMux) (g : Global) (route typ : String) :
    (HandlerFunc CollectInfo g (.nonFunc typ)).1
      = .error (.str ("plumbus.HandlerFunc called on non-function type " ++ typ)) ∧
    ServeMux.Handle CollectInfo sm g route (.nonFunc typ) = (none, sm, g) :=
  ⟨rfl, rfl⟩

/-- C7 (what the code does): the reflective adaptor has no branch for query parameters; an input
that is not the body goes to the type assertion `.(FromRequest)`, which a query parameter carrier
does not satisfy. For `func(IdParam) (Foo, error)` and a request without `id`, and for
`func(PageParam) (Foo, error)` and the request `?page=abc`, the adaptor panics; nothing is
written to the response, in particular no status 400. -/
theorem queryParam_adaptor_panics :
    (infoToDynamicAdaptor idParamInfo (fun _ => [fooResult, nilErrorResult])
        ⟨"GET", "/x", "", ""⟩ (Exec.start .fresh))
      = ⟨.fresh, [], [], some "interface conversion: missing method FromRequest"⟩ ∧
    (infoToDynamicAdaptor pageParamInfo (fun _ => [fooResult, nilErrorResult])
        ⟨"GET", "/x", "page=abc", ""⟩ (Exec.start .fresh))
      = ⟨.fresh, [], [], some "interface conversion: missing method FromRequest"⟩ :=
  ⟨rfl, rfl⟩

/-! ## The documentation extractor -/

/-- C9 (what the code does): `deepZero` leaves nils in reach. For `**int` the deep zero of the
pointee is computed and dropped, and the result points to a nil pointer; the element of a slice
of structs and a field that is itself a struct are left at their zero value, nil pointers
included. -/
theorem deepZero_leaves_nil :
    (deepZero (.ptr (.ptr (.scalar .int)))).val = .ptr .nilPtr ∧
    hasNil (deepZero (.ptr (.ptr (.scalar .int)))).val = true ∧
    (deepZero (.slice (.struct (.cons "P" true (.ptr (.scalar .int)) .nil)))).val
      = .slice (.cons (.struct (.cons .nilPtr .nil)) .nil) ∧
    (deepZero (.struct (.cons "Inner" true
        (.struct (.cons "P" true (.ptr (.scalar .int)) .nil)) .nil))).val
      = .struct (.cons (.struct (.cons .nilPtr .nil)) .nil) :=
  ⟨rfl, rfl, rfl, rfl⟩

/-- C10 (what the code does): the `Params` entry of an integer query parameter has type
`string`, and the entry of a string query parameter has type `integer`. -/
theorem params_type_swapped :
    (endpointOf (handlerFunctionToEndpoint exampleCollectInfo .empty
        (.func ⟨"func(handlers.PageParam) (handlers.Foo, error)"⟩ "handlers.List"
          (fun _ => [fooResult, nilErrorResult])))).map (fun e => e.Params)
      = some [("page", ⟨"string", true, ""⟩)] ∧
    (endpointOf (handlerFunctionToEndpoint exampleCollectInfo .empty
        (.func ⟨"func(handlers.IdParam) (handlers.Foo, error)"⟩ "handlers.Get"
          (fun _ => [fooResult, nilErrorResult])))).map (fun e => e.Params)
      = some [("id", ⟨"integer", true, ""⟩)] := by
  constructor <;> decide

end Plumbus
